import Mathlib

set_option maxRecDepth 100000

/-!
Verification of the patent-copilot command-line assistant
(`src/patent_copilot.py`) against its natural-language specification.

The Python program is shallowly embedded: external effects (the SerpAPI
client, the LangChain agent engine, standard input) are passed in as
explicit parameters; a Python call that may raise is modelled as an
`Except String` value carrying the exception message.
-/

/-- Model of Python `str.strip()`: remove leading and trailing whitespace
characters from the string. -/
def pyStrip (s : String) : String :=
  String.mk (((s.data.dropWhile Char.isWhitespace).reverse.dropWhile
      Char.isWhitespace).reverse)

/-- Model of Python `sep.join(parts)`. -/
def strJoin (sep : String) : List String → String
  | [] => ""
  | [x] => x
  | x :: y :: xs => x ++ sep ++ strJoin sep (y :: xs)

/-- One record of the upstream `organic_results` list.  Each field is
optional in the upstream JSON object; `none` models an absent key
(Python `patent.get(key, default)` selects the default). -/
structure PatentRecord where
  title : Option String
  snippet : Option String
  patent_id : Option String
  inventor : Option String
  assignee : Option String
  publication_date : Option String
deriving DecidableEq

/-- Shape of the upstream search response consumed by the adapter: an
optional `error` field and the `organic_results` list (a missing list is
modelled as `[]`, matching `results.get("organic_results", [])`). -/
structure SearchResponse where
  error : Option String
  organic_results : List PatentRecord
deriving DecidableEq

/-- The request parameter object built by `search_patents`
(`{"engine": "google_patents", "q": query, "num": 10}`). -/
structure RequestParams where
  engine : String
  q : String
  num : Nat
deriving DecidableEq

/-- Parameters sent to the SerpAPI client for a given query. -/
def searchParams (query : String) : RequestParams :=
  { engine := "google_patents", q := query, num := 10 }

/-- The header separator rule `"=" * 50`. -/
def sepEq : String := String.mk (List.replicate 50 '=')

/-- The per-result separator rule `"-" * 40`. -/
def sepDash : String := String.mk (List.replicate 40 '-')

/-- Body of the `for i, patent in enumerate(patents, 1)` loop in
`search_patents`: the lines appended to `formatted_results` for one
result record, with the placeholder defaults of `patent.get`. -/
def formatPatent (i : Nat) (p : PatentRecord) : List String :=
  let title := p.title.getD "No title available"
  let snippet := p.snippet.getD "No description available"
  let patent_id := p.patent_id.getD "No patent ID"
  let inventor := p.inventor.getD "Unknown inventor"
  let assignee := p.assignee.getD "Unknown assignee"
  let publication_date := p.publication_date.getD "Unknown date"
  ["\n" ++ Nat.repr i ++ ". " ++ title,
   "   Patent ID: " ++ patent_id,
   "   Inventor: " ++ inventor,
   "   Assignee: " ++ assignee,
   "   Publication Date: " ++ publication_date,
   "   Description: " ++ snippet,
   sepDash]

/-- The whole enumeration loop of `search_patents`, starting at index
`i` (the source starts at 1). -/
def formatAll : Nat → List PatentRecord → List String
  | _, [] => []
  | i, p :: ps => formatPatent i p ++ formatAll (i + 1) ps

/-- Shallow embedding of `PatentSearchTool.search_patents`.  The SerpAPI
client is the explicit argument `client`; a transport or parse exception
raised by `self.client.search(params)` is an `Except.error` carrying the
exception text and is handled by the `except` clause of the source. -/
def search_patents (query : String)
    (client : RequestParams → Except String SearchResponse) : String :=
  match client (searchParams query) with
  | Except.error e => "Error occurred during patent search: " ++ e
  | Except.ok results =>
    match results.error with
    | some err => "Error in patent search: " ++ err
    | none =>
      let patents := results.organic_results
      if patents.isEmpty then
        "No patents found for query: \x27" ++ query ++ "\x27"
      else
        strJoin "\n"
          (("Patent Search Results for: \x27" ++ query ++ "\x27")
            :: sepEq :: formatAll 1 patents)

/-- Splitting a character list at every occurrence of `c`; the result is
always non-empty and joining it back with `c` restores the input. -/
def splitOnChar (c : Char) : List Char → List (List Char)
  | [] => [[]]
  | x :: xs =>
    match splitOnChar c xs with
    | [] => [[]]
    | r :: rs => if x = c then [] :: r :: rs else (x :: r) :: rs

/-- The list of lines of a string (split at every newline). -/
def linesOf (s : String) : List String :=
  (splitOnChar '\n' s.data).map String.mk

/-- A line is a separator rule when it equals the `"=" * 50` header rule
or the `"-" * 40` per-result rule. -/
def isSepRule (l : String) : Bool :=
  decide (l = sepEq) || decide (l = sepDash)

/-- Number of separator-rule lines in a string. -/
def countSepRules (s : String) : Nat :=
  ((linesOf s).filter isSepRule).length

/-- A line is a numbered entry when it starts with one or more decimal
digits followed by `". "`. -/
def isNumberedLine (l : String) : Bool :=
  !(l.data.takeWhile Char.isDigit).isEmpty &&
  (match l.data.dropWhile Char.isDigit with
   | '.' :: ' ' :: _ => true
   | _ => false)

/-- Number of numbered-entry lines in a string. -/
def countNumberedEntries (s : String) : Nat :=
  ((linesOf s).filter isNumberedLine).length

/-- A field value, when present, contains no newline character. -/
def optLineFree : Option String → Prop
  | none => True
  | some s => '\n' ∉ s.data

/-- All six optional fields of a result record are newline-free. -/
def recordLineFree (p : PatentRecord) : Prop :=
  optLineFree p.title ∧ optLineFree p.snippet ∧ optLineFree p.patent_id ∧
  optLineFree p.inventor ∧ optLineFree p.assignee ∧ optLineFree p.publication_date

/-- A result record with every optional field absent. -/
def emptyRecord : PatentRecord := ⟨none, none, none, none, none, none⟩

/-- A client that always answers with the given response (no exception). -/
def constClient (resp : SearchResponse) : RequestParams → Except String SearchResponse :=
  fun _ => Except.ok resp

/-- An eleven-record response used to refute the renderer-side cap. -/
def elevenRecords : List PatentRecord := List.replicate 11 emptyRecord

/-- Shallow embedding of the fixed instruction template that
`analyze_invention` wraps around the invention description before
handing it to the agent executor. -/
def analysisPrompt (invention_description : String) : String :=
  "Please analyze this invention and search for similar patents:\n\nInvention Description: " ++
  invention_description ++
  "\n\nPlease follow these steps:\n1. Extract key technical concepts and keywords\n2. Generate and execute 2-3 different search strategies\n3. Analyze the results and provide a comprehensive summary\n4. Provide recommendations for patent strategy"

/-- Shallow embedding of `PatentAnalysisAgent.analyze_invention`.  The
LangChain agent executor is the explicit `engine` parameter, mapping the
wrapped prompt to the `output` entry of its result; an exception raised
anywhere inside the `try` block is an `Except.error` carrying the
exception text, handled by the `except` clause of the source. -/
def analyze_invention (engine : String → Except String String)
    (invention_description : String) : String :=
  match engine (analysisPrompt invention_description) with
  | Except.ok output => output
  | Except.error e => "Error during patent analysis: " ++ e

/-- The `while empty_lines < 2` read loop of `get_user_input`: consumes
lines from the remaining standard input, counting consecutive blank
(whitespace-only) lines as Python `line.strip() == ""` does, and returns
the collected lines together with the unconsumed input; `none` models
`input()` raising `EOFError` on an exhausted stream. -/
def readUntilDoubleBlank (empty_lines : Nat) (input : List String)
    (lines : List String) : Option (List String × List String) :=
  if empty_lines < 2 then
    match input with
    | [] => none
    | line :: rest =>
      if pyStrip line = "" then
        readUntilDoubleBlank (empty_lines + 1) rest (lines ++ [line])
      else
        readUntilDoubleBlank 0 rest (lines ++ [line])
  else
    some (lines, input)

/-- The `while lines and lines[-1].strip() == "": lines.pop()` loop of
`get_user_input`: remove trailing blank lines. -/
def dropTrailingBlank (lines : List String) : List String :=
  (lines.reverse.dropWhile (fun l => pyStrip l == "")).reverse

/-- One level of `get_user_input`, with explicit recursion fuel bounding
the re-prompt depth (each successful read consumes at least two input
lines, so `input.length + 1` fuel always suffices on a finite stream). -/
def getUserInputGo : Nat → List String → Option String
  | 0, _ => none
  | fuel + 1, input =>
    match readUntilDoubleBlank 0 input [] with
    | none => none
    | some (lines, rest) =>
      let description := pyStrip (strJoin "\n" (dropTrailingBlank lines))
      if description = "" then getUserInputGo fuel rest else some description

/-- Shallow embedding of `get_user_input`: standard input is the explicit
list of lines; the result is `none` when the stream is exhausted
(`EOFError` propagating out of the read loop). -/
def get_user_input (input : List String) : Option String :=
  getUserInputGo (input.length + 1) input

/-- Observable actions of `main`, in order: console prints, construction
of the `PatentAnalysisAgent` (the step that builds the model and search
clients), and the single `analyze_invention` call. -/
inductive Event where
  | printed (s : String)
  | agentInit
  | analysisCall (desc : String)
deriving DecidableEq

/-- Truthiness of `os.getenv(name)` under `if not os.getenv(...)`:
`None` (unset) and the empty string are falsy. -/
def envTruthy : Option String → Bool
  | none => false
  | some s => !(s == "")

/-- The two credentials `main` reads from the environment. -/
structure Env where
  gemini : Option String
  serpapi : Option String

/-- The lines printed by `print_welcome`, copied from the source. -/
def printWelcomeLines : List String :=
  [String.mk (List.replicate 60 '='),
   "    ğŸ” PATENT COPILOT - Patent Search Agent ğŸ”",
   String.mk (List.replicate 60 '='),
   "\nWelcome! I\x27ll help you search for patents similar to your invention.",
   "\nHow to use:",
   "â€¢ Describe your invention in detail",
   "â€¢ Include key technical features and functionality",
   "â€¢ Be specific about what makes it unique",
   "\nExample: \x27A smart water bottle that tracks hydration levels",
   "using sensors and sends reminders to a mobile app\x27",
   "\n" ++ String.mk (List.replicate 60 '-')]

/-- The remediation message printed when `GEMINI_API_KEY` is missing. -/
def geminiMissingLines : List String :=
  ["âŒ Error: GEMINI_API_KEY not found in environment variables",
   "Please create a .env file with your API keys:",
   "GEMINI_API_KEY=your_gemini_api_key",
   "SERPAPI_API_KEY=your_serpapi_key"]

/-- The remediation message printed when `SERPAPI_API_KEY` is missing. -/
def serpapiMissingLines : List String :=
  ["âŒ Error: SERPAPI_API_KEY not found in environment variables",
   "Please create a .env file with your API keys:",
   "GEMINI_API_KEY=your_gemini_api_key",
   "SERPAPI_API_KEY=your_serpapi_key"]

/-- Shallow embedding of `main` (renamed `main_trace`, since Lean reserves
`main` for programs) as the trace of its observable events.
The environment, standard input, and the agent engine are explicit
parameters.  Prints issued inside `get_user_input` are not traced; a
`none` from `get_user_input` models `input()` raising `EOFError`, which
the top-level `except` clause reports. -/
def main_trace (env : Env) (input : List String)
    (engine : String → Except String String) : List Event :=
  (printWelcomeLines.map Event.printed) ++
  (if envTruthy env.gemini = false then
    geminiMissingLines.map Event.printed
  else if envTruthy env.serpapi = false then
    serpapiMissingLines.map Event.printed
  else
    [Event.printed "ğŸ¤– Initializing Patent Analysis Agent...",
     Event.agentInit,
     Event.printed "âœ… Agent ready!"] ++
    match get_user_input input with
    | none => [Event.printed "\nâŒ An error occurred: EOF when reading a line"]
    | some desc =>
      [Event.printed "\nğŸ” Analyzing invention and searching for similar patents...",
       Event.printed "This may take a moment...\n",
       Event.analysisCall desc,
       Event.printed "\nğŸ“Š Analysis Results:",
       Event.printed (String.mk (List.replicate 60 '=')),
       Event.printed (analyze_invention engine desc),
       Event.printed ("\n" ++ String.mk (List.replicate 60 '='))])

/-! ### Lemmas about `splitOnChar` and `linesOf` -/

theorem splitOnChar_ne_nil (c : Char) (l : List Char) : splitOnChar c l ≠ [] := by
  induction l with
  | nil => simp [splitOnChar]
  | cons x xs ih =>
    rw [splitOnChar]
    cases h : splitOnChar c xs with
    | nil => exact absurd h ih
    | cons r rs => by_cases hx : x = c <;> simp [hx]

theorem splitOnChar_exists_cons (c : Char) (l : List Char) :
    ∃ r rs, splitOnChar c l = r :: rs := by
  cases h : splitOnChar c l with
  | nil => exact absurd h (splitOnChar_ne_nil c l)
  | cons r rs => exact ⟨r, rs, rfl⟩

theorem splitOnChar_cons_self (c : Char) (l : List Char) :
    splitOnChar c (c :: l) = [] :: splitOnChar c l := by
  obtain ⟨r, rs, h⟩ := splitOnChar_exists_cons c l
  rw [splitOnChar, h]
  simp

theorem splitOnChar_append_sep (c : Char) (a b : List Char) :
    splitOnChar c (a ++ c :: b) = splitOnChar c a ++ splitOnChar c b := by
  induction a with
  | nil =>
    rw [List.nil_append, splitOnChar_cons_self]
    rfl
  | cons x xs ih =>
    obtain ⟨r, rs, h⟩ := splitOnChar_exists_cons c xs
    rw [List.cons_append, splitOnChar, ih, h, splitOnChar, h]
    by_cases hx : x = c <;> simp [hx]

theorem splitOnChar_of_not_mem {c : Char} {l : List Char} (h : c ∉ l) :
    splitOnChar c l = [l] := by
  induction l with
  | nil => rfl
  | cons x xs ih =>
    have hx : ¬(x = c) := fun e => h (e ▸ List.mem_cons_self x xs)
    rw [splitOnChar, ih (fun hm => h (List.mem_cons_of_mem x hm))]
    simp [hx]

theorem linesOf_of_not_mem {s : String} (h : '\n' ∉ s.data) : linesOf s = [s] := by
  rw [linesOf, splitOnChar_of_not_mem h]
  rfl

theorem linesOf_strJoin :
    ∀ parts : List String, parts ≠ [] →
      linesOf (strJoin "\n" parts) = (parts.map linesOf).flatten
  | [], h => absurd rfl h
  | [x], _ => by simp [strJoin, linesOf]
  | x :: y :: xs, _ => by
    have ih := linesOf_strJoin (y :: xs) (by simp)
    show linesOf (x ++ "\n" ++ strJoin "\n" (y :: xs)) = _
    rw [linesOf, String.data_append, String.data_append]
    have hnl : ("\n" : String).data = ['\n'] := rfl
    rw [hnl, List.append_assoc, List.singleton_append, splitOnChar_append_sep,
      List.map_append, List.map_cons, List.flatten_cons]
    show linesOf x ++ linesOf (strJoin "\n" (y :: xs)) = _
    rw [ih]

/-! ### Digits of `Nat.repr` -/

theorem digitChar_isDigit {n : Nat} (h : n < 10) : (Nat.digitChar n).isDigit = true := by
  interval_cases n <;> rfl

theorem toDigitsCore_isDigit :
    ∀ (fuel n : Nat) (ds : List Char), (∀ c ∈ ds, c.isDigit = true) →
      ∀ c ∈ Nat.toDigitsCore 10 fuel n ds, c.isDigit = true
  | 0, _, _, hds => hds
  | fuel + 1, n, ds, hds => by
    rw [Nat.toDigitsCore]
    have hd : (Nat.digitChar (n % 10)).isDigit = true :=
      digitChar_isDigit (Nat.mod_lt n (by omega))
    have hcons : ∀ c ∈ Nat.digitChar (n % 10) :: ds, c.isDigit = true := by
      intro c hc
      rcases List.mem_cons.mp hc with h | h
      · exact h ▸ hd
      · exact hds c h
    split
    · exact hcons
    · exact toDigitsCore_isDigit fuel (n / 10) _ hcons

theorem toDigitsCore_ne_nil :
    ∀ (fuel n : Nat) (ds : List Char), ds ≠ [] → Nat.toDigitsCore 10 fuel n ds ≠ []
  | 0, _, _, hds => hds
  | fuel + 1, n, ds, hds => by
    rw [Nat.toDigitsCore]
    split
    · simp
    · exact toDigitsCore_ne_nil fuel (n / 10) _ (by simp)

theorem repr_data_digits (n : Nat) : ∀ c ∈ (Nat.repr n).data, c.isDigit = true := by
  show ∀ c ∈ Nat.toDigitsCore 10 (n + 1) n [], c.isDigit = true
  exact toDigitsCore_isDigit (n + 1) n [] (by simp)

theorem repr_data_ne_nil (n : Nat) : (Nat.repr n).data ≠ [] := by
  show Nat.toDigitsCore 10 (n + 1) n [] ≠ []
  rw [Nat.toDigitsCore]
  split
  · simp
  · exact toDigitsCore_ne_nil n (n / 10) _ (by simp)

theorem repr_data_not_newline (n : Nat) : '\n' ∉ (Nat.repr n).data := by
  intro h
  have := repr_data_digits n '\n' h
  simp [Char.isDigit] at this

/-! ### Classification of output lines -/

theorem head_append_of_cons {s : String} {c : Char} {cs : List Char}
    (h : s.data = c :: cs) (t : String) : (s ++ t).data.head? = some c := by
  rw [String.data_append, h]
  rfl

theorem isSepRule_eq_false {l : String}
    (h : ∀ c, l.data.head? = some c → c ≠ '=' ∧ c ≠ '-') : isSepRule l = false := by
  rw [isSepRule]
  have h1 : ¬(l = sepEq) := by
    intro e
    subst e
    exact (h '=' rfl).1 rfl
  have h2 : ¬(l = sepDash) := by
    intro e
    subst e
    exact (h '-' rfl).2 rfl
  simp [h1, h2]

theorem isNumberedLine_eq_false {l : String}
    (h : ∀ c, l.data.head? = some c → c.isDigit = false) : isNumberedLine l = false := by
  rw [isNumberedLine]
  cases hd : l.data with
  | nil => rfl
  | cons x xs =>
    have hx : x.isDigit = false := h x (by rw [hd]; rfl)
    rw [List.takeWhile_cons, hx]
    simp

theorem takeWhile_append_all {p : α → Bool} :
    ∀ {l₁ l₂ : List α}, (∀ a ∈ l₁, p a = true) →
      (l₁ ++ l₂).takeWhile p = l₁ ++ l₂.takeWhile p
  | [], _, _ => rfl
  | x :: xs, l₂, h => by
    have hx := h x (List.mem_cons_self x xs)
    simp only [List.cons_append, List.takeWhile_cons, hx, if_true]
    rw [takeWhile_append_all (fun a ha => h a (List.mem_cons_of_mem x ha))]

theorem dropWhile_append_all {p : α → Bool} :
    ∀ {l₁ l₂ : List α}, (∀ a ∈ l₁, p a = true) →
      (l₁ ++ l₂).dropWhile p = l₂.dropWhile p
  | [], _, _ => rfl
  | x :: xs, l₂, h => by
    have hx := h x (List.mem_cons_self x xs)
    simp only [List.cons_append, List.dropWhile_cons, hx, if_true]
    exact dropWhile_append_all (fun a ha => h a (List.mem_cons_of_mem x ha))

theorem repr_data_exists_cons (i : Nat) :
    ∃ d ds, (Nat.repr i).data = d :: ds ∧ d.isDigit = true := by
  cases h : (Nat.repr i).data with
  | nil => exact absurd h (repr_data_ne_nil i)
  | cons a l =>
    refine ⟨a, l, rfl, repr_data_digits i a ?_⟩
    rw [h]
    exact List.mem_cons_self a l

theorem isNumberedLine_entry (i : Nat) (t : List Char) :
    isNumberedLine (String.mk ((Nat.repr i).data ++ '.' :: ' ' :: t)) = true := by
  rw [isNumberedLine]
  show (!(((Nat.repr i).data ++ '.' :: ' ' :: t).takeWhile Char.isDigit).isEmpty &&
      (match ((Nat.repr i).data ++ '.' :: ' ' :: t).dropWhile Char.isDigit with
       | '.' :: ' ' :: _ => true
       | _ => false)) = true
  rw [takeWhile_append_all (repr_data_digits i), dropWhile_append_all (repr_data_digits i)]
  rw [Bool.and_eq_true]
  obtain ⟨d, ds, hd, _⟩ := repr_data_exists_cons i
  constructor
  · rw [show ('.' :: ' ' :: t).takeWhile Char.isDigit = [] from rfl, List.append_nil, hd]
    rfl
  · rw [show ('.' :: ' ' :: t).dropWhile Char.isDigit = '.' :: ' ' :: t from rfl]
    rfl

theorem isSepRule_entry (i : Nat) (t : List Char) :
    isSepRule (String.mk ((Nat.repr i).data ++ '.' :: ' ' :: t)) = false := by
  apply isSepRule_eq_false
  intro c hc
  obtain ⟨d, ds, hd, hdig⟩ := repr_data_exists_cons i
  rw [show (String.mk ((Nat.repr i).data ++ '.' :: ' ' :: t)).data =
      (Nat.repr i).data ++ '.' :: ' ' :: t from rfl, hd] at hc
  simp only [List.cons_append, List.head?_cons, Option.some.injEq] at hc
  subst hc
  constructor <;> intro e <;> rw [e] at hdig <;> exact absurd hdig (by decide)

theorem isSepRule_head_false {l : String} {c : Char} (hc : l.data.head? = some c)
    (h1 : c ≠ '=') (h2 : c ≠ '-') : isSepRule l = false := by
  apply isSepRule_eq_false
  intro c' hc'
  rw [hc] at hc'
  injection hc' with e
  exact e ▸ ⟨h1, h2⟩

theorem isNumberedLine_head_false {l : String} {c : Char} (hc : l.data.head? = some c)
    (h : c.isDigit = false) : isNumberedLine l = false := by
  apply isNumberedLine_eq_false
  intro c' hc'
  rw [hc] at hc'
  injection hc' with e
  exact e ▸ h

/-! ### Per-field absence of newlines -/

theorem optLineFree_getD {o : Option String} {d : String} (ho : optLineFree o)
    (hd : '\n' ∉ d.data) : '\n' ∉ (o.getD d).data := by
  cases o
  · exact hd
  · exact ho

theorem not_newline_append {s t : String} (hs : '\n' ∉ s.data) (ht : '\n' ∉ t.data) :
    '\n' ∉ (s ++ t).data := by
  rw [String.data_append]
  intro h
  rcases List.mem_append.mp h with h | h
  · exact hs h
  · exact ht h

/-! ### The lines of one formatted result block -/

theorem entry_data (i : Nat) (t : String) :
    ("\n" ++ Nat.repr i ++ ". " ++ t).data =
      '\n' :: ((Nat.repr i).data ++ '.' :: ' ' :: t.data) := by
  rw [String.data_append, String.data_append, String.data_append]
  have h1 : ("\n" : String).data = ['\n'] := rfl
  have h2 : (". " : String).data = ['.', ' '] := rfl
  rw [h1, h2]
  simp

theorem entry_tail_not_newline (i : Nat) {t : String} (ht : '\n' ∉ t.data) :
    '\n' ∉ (Nat.repr i).data ++ '.' :: ' ' :: t.data := by
  intro h
  rcases List.mem_append.mp h with h | h
  · exact repr_data_not_newline i h
  · rcases List.mem_cons.mp h with h | h
    · exact absurd h (by decide)
    · rcases List.mem_cons.mp h with h | h
      · exact absurd h (by decide)
      · exact ht h

theorem linesOf_entry (i : Nat) {t : String} (ht : '\n' ∉ t.data) :
    linesOf ("\n" ++ Nat.repr i ++ ". " ++ t) =
      ["", String.mk ((Nat.repr i).data ++ '.' :: ' ' :: t.data)] := by
  rw [linesOf, entry_data i t, splitOnChar_cons_self,
    splitOnChar_of_not_mem (entry_tail_not_newline i ht)]
  rfl

theorem block_lines (i : Nat) (p : PatentRecord) (hp : recordLineFree p) :
    ((formatPatent i p).map linesOf).flatten =
      ["",
       String.mk ((Nat.repr i).data ++ '.' :: ' ' :: (p.title.getD "No title available").data),
       "   Patent ID: " ++ p.patent_id.getD "No patent ID",
       "   Inventor: " ++ p.inventor.getD "Unknown inventor",
       "   Assignee: " ++ p.assignee.getD "Unknown assignee",
       "   Publication Date: " ++ p.publication_date.getD "Unknown date",
       "   Description: " ++ p.snippet.getD "No description available",
       sepDash] := by
  obtain ⟨h1, h2, h3, h4, h5, h6⟩ := hp
  have k1 : '\n' ∉ (p.title.getD "No title available").data :=
    optLineFree_getD h1 (by decide)
  have k2 : '\n' ∉ (p.snippet.getD "No description available").data :=
    optLineFree_getD h2 (by decide)
  have k3 : '\n' ∉ (p.patent_id.getD "No patent ID").data :=
    optLineFree_getD h3 (by decide)
  have k4 : '\n' ∉ (p.inventor.getD "Unknown inventor").data :=
    optLineFree_getD h4 (by decide)
  have k5 : '\n' ∉ (p.assignee.getD "Unknown assignee").data :=
    optLineFree_getD h5 (by decide)
  have k6 : '\n' ∉ (p.publication_date.getD "Unknown date").data :=
    optLineFree_getD h6 (by decide)
  show (linesOf ("\n" ++ Nat.repr i ++ ". " ++ p.title.getD "No title available") ++
      (linesOf ("   Patent ID: " ++ p.patent_id.getD "No patent ID") ++
      (linesOf ("   Inventor: " ++ p.inventor.getD "Unknown inventor") ++
      (linesOf ("   Assignee: " ++ p.assignee.getD "Unknown assignee") ++
      (linesOf ("   Publication Date: " ++ p.publication_date.getD "Unknown date") ++
      (linesOf ("   Description: " ++ p.snippet.getD "No description available") ++
      (linesOf sepDash ++ []))))))) = _
  rw [linesOf_entry i k1,
    linesOf_of_not_mem (not_newline_append (by decide) k3),
    linesOf_of_not_mem (not_newline_append (by decide) k4),
    linesOf_of_not_mem (not_newline_append (by decide) k5),
    linesOf_of_not_mem (not_newline_append (by decide) k6),
    linesOf_of_not_mem (not_newline_append (by decide) k2),
    linesOf_of_not_mem (show '\n' ∉ sepDash.data by decide)]
  rfl

theorem block_filter_sep (i : Nat) (p : PatentRecord) (hp : recordLineFree p) :
    (((formatPatent i p).map linesOf).flatten.filter isSepRule) = [sepDash] := by
  rw [block_lines i p hp]
  have e0 : isSepRule "" = false := by decide
  have e1 := isSepRule_entry i (p.title.getD "No title available").data
  have e2 := isSepRule_head_false
    (l := "   Patent ID: " ++ p.patent_id.getD "No patent ID")
    (by rw [String.data_append]; rfl) (by decide) (by decide)
  have e3 := isSepRule_head_false
    (l := "   Inventor: " ++ p.inventor.getD "Unknown inventor")
    (by rw [String.data_append]; rfl) (by decide) (by decide)
  have e4 := isSepRule_head_false
    (l := "   Assignee: " ++ p.assignee.getD "Unknown assignee")
    (by rw [String.data_append]; rfl) (by decide) (by decide)
  have e5 := isSepRule_head_false
    (l := "   Publication Date: " ++ p.publication_date.getD "Unknown date")
    (by rw [String.data_append]; rfl) (by decide) (by decide)
  have e6 := isSepRule_head_false
    (l := "   Description: " ++ p.snippet.getD "No description available")
    (by rw [String.data_append]; rfl) (by decide) (by decide)
  have e7 : isSepRule sepDash = true := by decide
  simp [List.filter_cons, e0, e1, e2, e3, e4, e5, e6, e7]

theorem block_filter_num (i : Nat) (p : PatentRecord) (hp : recordLineFree p) :
    (((formatPatent i p).map linesOf).flatten.filter isNumberedLine) =
      [String.mk ((Nat.repr i).data ++ '.' :: ' ' ::
        (p.title.getD "No title available").data)] := by
  rw [block_lines i p hp]
  have e0 : isNumberedLine "" = false := by decide
  have e1 := isNumberedLine_entry i (p.title.getD "No title available").data
  have e2 := isNumberedLine_head_false
    (l := "   Patent ID: " ++ p.patent_id.getD "No patent ID")
    (by rw [String.data_append]; rfl) (by decide)
  have e3 := isNumberedLine_head_false
    (l := "   Inventor: " ++ p.inventor.getD "Unknown inventor")
    (by rw [String.data_append]; rfl) (by decide)
  have e4 := isNumberedLine_head_false
    (l := "   Assignee: " ++ p.assignee.getD "Unknown assignee")
    (by rw [String.data_append]; rfl) (by decide)
  have e5 := isNumberedLine_head_false
    (l := "   Publication Date: " ++ p.publication_date.getD "Unknown date")
    (by rw [String.data_append]; rfl) (by decide)
  have e6 := isNumberedLine_head_false
    (l := "   Description: " ++ p.snippet.getD "No description available")
    (by rw [String.data_append]; rfl) (by decide)
  have e7 : isNumberedLine sepDash = false := by decide
  simp [List.filter_cons, e0, e1, e2, e3, e4, e5, e6, e7]

theorem formatAll_filter_counts :
    ∀ (rs : List PatentRecord) (i : Nat), (∀ p ∈ rs, recordLineFree p) →
      (((formatAll i rs).map linesOf).flatten.filter isSepRule).length = rs.length ∧
      (((formatAll i rs).map linesOf).flatten.filter isNumberedLine).length = rs.length
  | [], i, _ => by simp [formatAll]
  | p :: ps, i, h => by
    have ih := formatAll_filter_counts ps (i + 1)
      (fun q hq => h q (List.mem_cons_of_mem p hq))
    have hp := h p (List.mem_cons_self p ps)
    rw [formatAll, List.map_append, List.flatten_append, List.filter_append,
      List.filter_append, block_filter_sep i p hp, block_filter_num i p hp]
    constructor
    · simp only [List.length_append, List.length_cons, List.length_nil, ih.1]
      omega
    · simp only [List.length_append, List.length_cons, List.length_nil, ih.2]
      omega

theorem search_patents_ok_lines (query : String)
    (client : RequestParams → Except String SearchResponse) (rs : List PatentRecord)
    (hc : client (searchParams query) = Except.ok ⟨none, rs⟩) (hrs : rs ≠ [])
    (hq : '\n' ∉ query.data) :
    linesOf (search_patents query client) =
      ("Patent Search Results for: \x27" ++ query ++ "\x27") :: sepEq ::
        ((formatAll 1 rs).map linesOf).flatten := by
  obtain ⟨r, rs', rfl⟩ : ∃ r rs', rs = r :: rs' := by
    cases rs with
    | nil => exact absurd rfl hrs
    | cons a b => exact ⟨a, b, rfl⟩
  unfold search_patents
  rw [hc]
  show linesOf (strJoin "\n" (("Patent Search Results for: \x27" ++ query ++ "\x27") ::
      sepEq :: formatAll 1 (r :: rs'))) = _
  rw [linesOf_strJoin _ (by simp), List.map_cons, List.map_cons, List.flatten_cons,
    List.flatten_cons,
    linesOf_of_not_mem (not_newline_append (not_newline_append (by decide) hq) (by decide)),
    linesOf_of_not_mem (show '\n' ∉ sepEq.data by decide)]
  rfl

theorem recordLineFree_emptyRecord : recordLineFree emptyRecord :=
  ⟨trivial, trivial, trivial, trivial, trivial, trivial⟩

/-! ### Claim C1 -/

/-- C1 (counterexample): for the well-formed response with N = 2 result
records the formatted output contains exactly 2 numbered entries but 3
separator rules, not 2 × 2 = 4 as the claim states. -/
theorem c1_counterexample :
    countNumberedEntries
        (search_patents "q" (constClient ⟨none, [emptyRecord, emptyRecord]⟩)) = 2 ∧
    countSepRules
        (search_patents "q" (constClient ⟨none, [emptyRecord, emptyRecord]⟩)) = 3 ∧
    ¬(countSepRules
        (search_patents "q" (constClient ⟨none, [emptyRecord, emptyRecord]⟩)) = 2 * 2) := by
  refine ⟨by decide, by decide, ?_⟩
  intro h
  have h3 : countSepRules
      (search_patents "q" (constClient ⟨none, [emptyRecord, emptyRecord]⟩)) = 3 := by decide
  rw [h3] at h
  omega

/-- C1 (amended): for every well-formed search response with N result
records, 1 ≤ N ≤ 10, whose query and field values contain no newline, the
string returned by `search_patents` contains exactly N numbered entries
and N + 1 separator rules (the `"=" * 50` header rule plus one `"-" * 40`
rule per entry), and the first output line echoes the query verbatim as
`"Patent Search Results for: '<query>'"`. -/
theorem c1_amended (query : String)
    (client : RequestParams → Except String SearchResponse) (rs : List PatentRecord)
    (hc : client (searchParams query) = Except.ok ⟨none, rs⟩)
    (hrs : rs ≠ []) (hn10 : rs.length ≤ 10)
    (hq : '\n' ∉ query.data) (hf : ∀ p ∈ rs, recordLineFree p) :
    countNumberedEntries (search_patents query client) = rs.length ∧
    countSepRules (search_patents query client) = rs.length + 1 ∧
    (linesOf (search_patents query client)).head? =
      some ("Patent Search Results for: \x27" ++ query ++ "\x27") := by
  have hl := search_patents_ok_lines query client rs hc hrs hq
  have hcounts := formatAll_filter_counts rs 1 hf
  have hdrs : isSepRule ("Patent Search Results for: \x27" ++ query ++ "\x27") = false :=
    isSepRule_head_false (by rw [String.data_append, String.data_append]; rfl)
      (by decide) (by decide)
  have hdrn : isNumberedLine ("Patent Search Results for: \x27" ++ query ++ "\x27") = false :=
    isNumberedLine_head_false (by rw [String.data_append, String.data_append]; rfl)
      (by decide)
  have hse : isSepRule sepEq = true := by decide
  have hne : isNumberedLine sepEq = false := by decide
  refine ⟨?_, ?_, ?_⟩
  · rw [countNumberedEntries, hl, List.filter_cons_of_neg (by simp [hdrn]),
      List.filter_cons_of_neg (by simp [hne]), hcounts.2]
  · rw [countSepRules, hl, List.filter_cons_of_neg (by simp [hdrs]),
      List.filter_cons_of_pos hse, List.length_cons, hcounts.1]
  · rw [hl]
    rfl

/-- C1 (witness): the amended theorem applied to a concrete one-record
response. -/
theorem c1_amended_witness :
    countNumberedEntries (search_patents "q" (constClient ⟨none, [emptyRecord]⟩)) = 1 ∧
    countSepRules (search_patents "q" (constClient ⟨none, [emptyRecord]⟩)) = 2 ∧
    (linesOf (search_patents "q" (constClient ⟨none, [emptyRecord]⟩))).head? =
      some ("Patent Search Results for: \x27" ++ "q" ++ "\x27") := by
  have h := c1_amended "q" (constClient ⟨none, [emptyRecord]⟩) [emptyRecord] rfl
    (by decide) (by decide) (by decide)
    (by
      intro p hp
      rw [List.mem_singleton] at hp
      rw [hp]
      exact recordLineFree_emptyRecord)
  exact h

/-! ### Claim C2 -/

/-- C2 (counterexample): a response whose `organic_results` list holds 11
records is rendered with 11 numbered entries, so more than 10 entries
appear in the formatted output. -/
theorem c2_counterexample :
    ¬(countNumberedEntries (search_patents "q" (constClient ⟨none, elevenRecords⟩)) ≤ 10) := by
  have hf : ∀ p ∈ elevenRecords, recordLineFree p := by
    intro p hp
    rw [List.eq_of_mem_replicate hp]
    exact recordLineFree_emptyRecord
  have hl := search_patents_ok_lines "q" (constClient ⟨none, elevenRecords⟩) elevenRecords
    rfl (by decide) (by decide)
  have hcounts := formatAll_filter_counts elevenRecords 1 hf
  have h11 : countNumberedEntries
      (search_patents "q" (constClient ⟨none, elevenRecords⟩)) = 11 := by
    rw [countNumberedEntries, hl, List.filter_cons_of_neg (by decide),
      List.filter_cons_of_neg (by decide), hcounts.2]
    decide
  intro h
  rw [h11] at h
  omega

/-- C2 (amended): `search_patents` asks the backend for at most 10 results
(the `num` request parameter is 10) but renders every record of the
response it receives: for a response with N organic results (newline-free
fields, newline-free query) the output contains exactly N numbered
entries, even when N exceeds 10. -/
theorem c2_amended (query : String)
    (client : RequestParams → Except String SearchResponse) (rs : List PatentRecord)
    (hc : client (searchParams query) = Except.ok ⟨none, rs⟩)
    (hrs : rs ≠ []) (hq : '\n' ∉ query.data) (hf : ∀ p ∈ rs, recordLineFree p) :
    (searchParams query).num = 10 ∧
    countNumberedEntries (search_patents query client) = rs.length := by
  have hl := search_patents_ok_lines query client rs hc hrs hq
  have hcounts := formatAll_filter_counts rs 1 hf
  have hdrn : isNumberedLine ("Patent Search Results for: \x27" ++ query ++ "\x27") = false :=
    isNumberedLine_head_false (by rw [String.data_append, String.data_append]; rfl)
      (by decide)
  have hne : isNumberedLine sepEq = false := by decide
  refine ⟨rfl, ?_⟩
  rw [countNumberedEntries, hl, List.filter_cons_of_neg (by simp [hdrn]),
    List.filter_cons_of_neg (by simp [hne]), hcounts.2]

/-- C2 (witness): the amended theorem applied to the eleven-record
response, exhibiting 11 rendered entries. -/
theorem c2_amended_witness :
    (searchParams "q").num = 10 ∧
    countNumberedEntries (search_patents "q" (constClient ⟨none, elevenRecords⟩)) = 11 := by
  have h := c2_amended "q" (constClient ⟨none, elevenRecords⟩) elevenRecords rfl
    (by decide) (by decide)
    (by
      intro p hp
      rw [List.eq_of_mem_replicate hp]
      exact recordLineFree_emptyRecord)
  refine ⟨h.1, ?_⟩
  rw [h.2]
  decide

/-! ### Claim C3 -/

theorem string_ne_empty_of_data {s : String} (h : s.data ≠ []) : s ≠ "" := by
  intro e
  rw [e] at h
  exact h rfl

theorem data_append_ne_nil (s t : String) (h : s.data ≠ []) : (s ++ t).data ≠ [] := by
  rw [String.data_append]
  intro e
  exact h (List.append_eq_nil.mp e).1

/-- C3: for every query and every upstream outcome (a response, or a
transport/parse exception carried by `Except.error`), `search_patents`
returns a non-empty string; the embedding is a total function, so no
exception escapes to the caller. -/
theorem c3_search_patents_total_nonempty (query : String)
    (client : RequestParams → Except String SearchResponse) :
    search_patents query client ≠ "" := by
  unfold search_patents
  cases hc : client (searchParams query) with
  | error e =>
    show "Error occurred during patent search: " ++ e ≠ ""
    exact string_ne_empty_of_data (data_append_ne_nil _ _ (by decide))
  | ok results =>
    cases results with
    | mk err orgs =>
      cases err with
      | some msg =>
        show "Error in patent search: " ++ msg ≠ ""
        exact string_ne_empty_of_data (data_append_ne_nil _ _ (by decide))
      | none =>
        cases orgs with
        | nil =>
          show "No patents found for query: \x27" ++ query ++ "\x27" ≠ ""
          exact string_ne_empty_of_data
            (data_append_ne_nil _ _ (data_append_ne_nil _ _ (by decide)))
        | cons r rest =>
          show ("Patent Search Results for: \x27" ++ query ++ "\x27") ++ "\n" ++
              strJoin "\n" (sepEq :: formatAll 1 (r :: rest)) ≠ ""
          exact string_ne_empty_of_data
            (data_append_ne_nil _ _ (data_append_ne_nil _ _
              (data_append_ne_nil _ _ (data_append_ne_nil _ _ (by decide)))))

/-! ### Claim C4 -/

/-- C4: for every response with an empty `organic_results` list and no
`error` field, `search_patents` returns exactly
`"No patents found for query: '<query>'"` with the query substituted. -/
theorem c4_no_results_message (query : String)
    (client : RequestParams → Except String SearchResponse)
    (hc : client (searchParams query) = Except.ok ⟨none, []⟩) :
    search_patents query client =
      "No patents found for query: \x27" ++ query ++ "\x27" := by
  unfold search_patents
  rw [hc]
  rfl

/-- C4 (witness): the theorem applied to a concrete query and empty
response. -/
theorem c4_no_results_message_witness :
    search_patents "smart bottle" (constClient ⟨none, []⟩) =
      "No patents found for query: \x27smart bottle\x27" :=
  c4_no_results_message "smart bottle" (constClient ⟨none, []⟩) rfl

/-! ### Claim C5 -/

/-- C5: for every response carrying an `error` field, `search_patents`
returns (it is a total function, so nothing is raised) a string that
starts with `"Error in patent search:"` and contains the backend error
text. -/
theorem c5_backend_error_reported (query : String)
    (client : RequestParams → Except String SearchResponse) (resp : SearchResponse)
    (msg : String) (hc : client (searchParams query) = Except.ok resp)
    (herr : resp.error = some msg) :
    search_patents query client = "Error in patent search: " ++ msg ∧
    (∃ t, (search_patents query client).data =
      ("Error in patent search:" : String).data ++ t) ∧
    (∃ a b, (search_patents query client).data = a ++ msg.data ++ b) := by
  have hout : search_patents query client = "Error in patent search: " ++ msg := by
    unfold search_patents
    rw [hc]
    cases resp with
    | mk err orgs =>
      cases err with
      | some m =>
        injection herr with e
        rw [e]
      | none => exact absurd herr (by simp)
  refine ⟨hout, ⟨' ' :: msg.data, ?_⟩, ⟨("Error in patent search: " : String).data, [], ?_⟩⟩
  · rw [hout, String.data_append]
    rfl
  · rw [hout, String.data_append, List.append_nil]

/-- C5 (witness): the theorem applied to a concrete erroring response. -/
theorem c5_backend_error_reported_witness :
    search_patents "q" (constClient ⟨some "quota exceeded", []⟩) =
      "Error in patent search: " ++ "quota exceeded" ∧
    (∃ t, (search_patents "q" (constClient ⟨some "quota exceeded", []⟩)).data =
      ("Error in patent search:" : String).data ++ t) ∧
    (∃ a b, (search_patents "q" (constClient ⟨some "quota exceeded", []⟩)).data =
      a ++ ("quota exceeded" : String).data ++ b) :=
  c5_backend_error_reported "q" (constClient ⟨some "quota exceeded", []⟩)
    ⟨some "quota exceeded", []⟩ "quota exceeded" rfl rfl

/-! ### Claim C6 -/

/-- C6: for every result record rendered by `search_patents`, each of the
six optional fields that is absent is replaced by its fixed placeholder,
and that placeholder appears in the rendered block for the record. -/
theorem c6_placeholder_fields (i : Nat) (p : PatentRecord) :
    (p.title = none → ∃ l ∈ formatPatent i p, ∃ a b,
      l.data = a ++ ("No title available" : String).data ++ b) ∧
    (p.snippet = none → ∃ l ∈ formatPatent i p, ∃ a b,
      l.data = a ++ ("No description available" : String).data ++ b) ∧
    (p.patent_id = none → ∃ l ∈ formatPatent i p, ∃ a b,
      l.data = a ++ ("No patent ID" : String).data ++ b) ∧
    (p.inventor = none → ∃ l ∈ formatPatent i p, ∃ a b,
      l.data = a ++ ("Unknown inventor" : String).data ++ b) ∧
    (p.assignee = none → ∃ l ∈ formatPatent i p, ∃ a b,
      l.data = a ++ ("Unknown assignee" : String).data ++ b) ∧
    (p.publication_date = none → ∃ l ∈ formatPatent i p, ∃ a b,
      l.data = a ++ ("Unknown date" : String).data ++ b) := by
  refine ⟨?_, ?_, ?_, ?_, ?_, ?_⟩
  · intro h
    refine ⟨"\n" ++ Nat.repr i ++ ". " ++ "No title available", ?_,
      ("\n" ++ Nat.repr i ++ ". " : String).data, [], ?_⟩
    · simp [formatPatent, h]
    · simp [String.data_append]
  · intro h
    refine ⟨"   Description: " ++ "No description available", ?_,
      ("   Description: " : String).data, [], ?_⟩
    · simp [formatPatent, h]
    · simp [String.data_append]
  · intro h
    refine ⟨"   Patent ID: " ++ "No patent ID", ?_,
      ("   Patent ID: " : String).data, [], ?_⟩
    · simp [formatPatent, h]
    · simp [String.data_append]
  · intro h
    refine ⟨"   Inventor: " ++ "Unknown inventor", ?_,
      ("   Inventor: " : String).data, [], ?_⟩
    · simp [formatPatent, h]
    · simp [String.data_append]
  · intro h
    refine ⟨"   Assignee: " ++ "Unknown assignee", ?_,
      ("   Assignee: " : String).data, [], ?_⟩
    · simp [formatPatent, h]
    · simp [String.data_append]
  · intro h
    refine ⟨"   Publication Date: " ++ "Unknown date", ?_,
      ("   Publication Date: " : String).data, [], ?_⟩
    · simp [formatPatent, h]
    · simp [String.data_append]

/-- C6 (witness): the theorem applied to the all-absent record at index 1:
each of the six placeholders appears in the rendered block. -/
theorem c6_placeholder_fields_witness :
    (∃ l ∈ formatPatent 1 emptyRecord, ∃ a b,
      l.data = a ++ ("No title available" : String).data ++ b) ∧
    (∃ l ∈ formatPatent 1 emptyRecord, ∃ a b,
      l.data = a ++ ("No description available" : String).data ++ b) ∧
    (∃ l ∈ formatPatent 1 emptyRecord, ∃ a b,
      l.data = a ++ ("No patent ID" : String).data ++ b) ∧
    (∃ l ∈ formatPatent 1 emptyRecord, ∃ a b,
      l.data = a ++ ("Unknown inventor" : String).data ++ b) ∧
    (∃ l ∈ formatPatent 1 emptyRecord, ∃ a b,
      l.data = a ++ ("Unknown assignee" : String).data ++ b) ∧
    (∃ l ∈ formatPatent 1 emptyRecord, ∃ a b,
      l.data = a ++ ("Unknown date" : String).data ++ b) := by
  have h := c6_placeholder_fields 1 emptyRecord
  exact ⟨h.1 rfl, h.2.1 rfl, h.2.2.1 rfl, h.2.2.2.1 rfl, h.2.2.2.2.1 rfl,
    h.2.2.2.2.2 rfl⟩

/-! ### Claim C7 -/

/-- C7: for every invention description, when the agent engine raises an
exception during `analyze_invention`, the exception is caught and a
string prefixed `"Error during patent analysis:"` containing the
exception message is returned instead of the exception propagating. -/
theorem c7_analysis_error_wrapped (engine : String → Except String String)
    (desc e : String) (h : engine (analysisPrompt desc) = Except.error e) :
    analyze_invention engine desc = "Error during patent analysis: " ++ e ∧
    (∃ t, (analyze_invention engine desc).data =
      ("Error during patent analysis:" : String).data ++ t) ∧
    (∃ a b, (analyze_invention engine desc).data = a ++ e.data ++ b) := by
  have hout : analyze_invention engine desc = "Error during patent analysis: " ++ e := by
    unfold analyze_invention
    rw [h]
  refine ⟨hout, ⟨' ' :: e.data, ?_⟩,
    ⟨("Error during patent analysis: " : String).data, [], ?_⟩⟩
  · rw [hout, String.data_append]
    rfl
  · rw [hout, String.data_append, List.append_nil]

/-- C7 (witness): the theorem applied to an engine that raises a concrete
exception. -/
theorem c7_analysis_error_wrapped_witness :
    analyze_invention (fun _ => Except.error "model quota exhausted") "a gadget" =
      "Error during patent analysis: " ++ "model quota exhausted" ∧
    (∃ t, (analyze_invention (fun _ => Except.error "model quota exhausted") "a gadget").data =
      ("Error during patent analysis:" : String).data ++ t) ∧
    (∃ a b, (analyze_invention (fun _ => Except.error "model quota exhausted") "a gadget").data =
      a ++ ("model quota exhausted" : String).data ++ b) :=
  c7_analysis_error_wrapped (fun _ => Except.error "model quota exhausted")
    "a gadget" "model quota exhausted" rfl

/-! ### Lemmas about the input-collection loop -/

theorem readUntil_rest_le :
    ∀ (input : List String) (empty_lines : Nat) (lines l rest : List String),
      readUntilDoubleBlank empty_lines input lines = some (l, rest) →
      rest.length ≤ input.length
  | [], e, lines, l, rest, h => by
    rw [readUntilDoubleBlank.eq_def] at h
    by_cases he : e < 2
    · rw [if_pos he] at h
      simp at h
    · rw [if_neg he] at h
      simp at h
      obtain ⟨-, h2⟩ := h
      subst h2
      exact Nat.le_refl _
  | line :: rest', e, lines, l, rest, h => by
    rw [readUntilDoubleBlank.eq_def] at h
    by_cases he : e < 2
    · rw [if_pos he] at h
      have h2 : (if pyStrip line = "" then
          readUntilDoubleBlank (e + 1) rest' (lines ++ [line])
          else readUntilDoubleBlank 0 rest' (lines ++ [line])) = some (l, rest) := h
      by_cases hb : pyStrip line = ""
      · rw [if_pos hb] at h2
        have := readUntil_rest_le rest' (e + 1) (lines ++ [line]) l rest h2
        have hlen : (line :: rest').length = rest'.length + 1 := rfl
        omega
      · rw [if_neg hb] at h2
        have := readUntil_rest_le rest' 0 (lines ++ [line]) l rest h2
        have hlen : (line :: rest').length = rest'.length + 1 := rfl
        omega
    · rw [if_neg he] at h
      simp at h
      obtain ⟨-, h2⟩ := h
      subst h2
      exact Nat.le_refl _

theorem readUntil_rest_lt (input : List String) (e : Nat) (lines l rest : List String)
    (he : e < 2) (h : readUntilDoubleBlank e input lines = some (l, rest)) :
    rest.length < input.length := by
  rw [readUntilDoubleBlank.eq_def, if_pos he] at h
  cases input with
  | nil => simp at h
  | cons line rest' =>
    have h2 : (if pyStrip line = "" then
        readUntilDoubleBlank (e + 1) rest' (lines ++ [line])
        else readUntilDoubleBlank 0 rest' (lines ++ [line])) = some (l, rest) := h
    by_cases hb : pyStrip line = ""
    · rw [if_pos hb] at h2
      have := readUntil_rest_le rest' (e + 1) (lines ++ [line]) l rest h2
      have hlen : (line :: rest').length = rest'.length + 1 := rfl
      omega
    · rw [if_neg hb] at h2
      have := readUntil_rest_le rest' 0 (lines ++ [line]) l rest h2
      have hlen : (line :: rest').length = rest'.length + 1 := rfl
      omega

theorem getUserInputGo_step (fuel : Nat) (input lines rest : List String)
    (hr : readUntilDoubleBlank 0 input [] = some (lines, rest)) :
    getUserInputGo (fuel + 1) input =
      if pyStrip (strJoin "\n" (dropTrailingBlank lines)) = ""
      then getUserInputGo fuel rest
      else some (pyStrip (strJoin "\n" (dropTrailingBlank lines))) := by
  rw [getUserInputGo, hr]

theorem getUserInputGo_congr :
    ∀ (f g : Nat) (input : List String), input.length < f → input.length < g →
      getUserInputGo f input = getUserInputGo g input
  | 0, _, input, hf, _ => absurd hf (by omega)
  | _ + 1, 0, input, _, hg => absurd hg (by omega)
  | f + 1, g + 1, input, hf, hg => by
    cases hr : readUntilDoubleBlank 0 input [] with
    | none =>
      rw [getUserInputGo, hr, getUserInputGo, hr]
    | some pr =>
      obtain ⟨lines, rest⟩ := pr
      rw [getUserInputGo_step f input lines rest hr, getUserInputGo_step g input lines rest hr]
      by_cases hd : pyStrip (strJoin "\n" (dropTrailingBlank lines)) = ""
      · rw [if_pos hd, if_pos hd]
        have hlt := readUntil_rest_lt input 0 [] lines rest (by omega) hr
        exact getUserInputGo_congr f g rest (by omega) (by omega)
      · rw [if_neg hd, if_neg hd]

/-! ### Claim C8 -/

/-- C8: input collection reads lines until two consecutive blank lines and
strips trailing blank lines: on `["hello", "", ""]` it returns `"hello"`;
an immediate double-blank makes `get_user_input` re-prompt on the
remaining input (so on `["", ""]` alone nothing is accepted and the
exhausted stream yields `none` rather than an empty description). -/
theorem c8_input_collection :
    get_user_input ["hello", "", ""] = some "hello" ∧
    (∀ more : List String, get_user_input ("" :: "" :: more) = get_user_input more) ∧
    get_user_input ["", ""] = none := by
  refine ⟨by decide, ?_, by decide⟩
  intro more
  have hr : readUntilDoubleBlank 0 ("" :: "" :: more) [] = some (["", ""], more) := by
    rw [readUntilDoubleBlank.eq_def, if_pos (by omega)]
    show (if pyStrip "" = "" then readUntilDoubleBlank 1 ("" :: more) ([] ++ [""])
          else readUntilDoubleBlank 0 ("" :: more) ([] ++ [""])) = _
    rw [if_pos (by decide), readUntilDoubleBlank.eq_def, if_pos (by omega)]
    show (if pyStrip "" = "" then readUntilDoubleBlank 2 more (([] ++ [""]) ++ [""])
          else readUntilDoubleBlank 0 more (([] ++ [""]) ++ [""])) = _
    rw [if_pos (by decide), readUntilDoubleBlank.eq_def, if_neg (by omega)]
    rfl
  show getUserInputGo (("" :: "" :: more).length + 1) ("" :: "" :: more) = get_user_input more
  have hlen : ("" :: "" :: more).length + 1 = (more.length + 2) + 1 := by simp
  rw [hlen, getUserInputGo_step (more.length + 2) ("" :: "" :: more) ["", ""] more hr,
    if_pos (by decide)]
  exact getUserInputGo_congr (more.length + 2) (more.length + 1) more (by omega) (by omega)

/-! ### Idempotence of `pyStrip` -/

theorem head_dropWhile_false (p : α → Bool) :
    ∀ (l : List α) (c : α), (l.dropWhile p).head? = some c → p c = false
  | [], c, h => by simp [List.dropWhile] at h
  | x :: xs, c, h => by
    rw [List.dropWhile_cons] at h
    by_cases hx : p x = true
    · rw [if_pos hx] at h
      exact head_dropWhile_false p xs c h
    · rw [if_neg hx] at h
      rw [List.head?_cons] at h
      injection h with h
      rw [← h]
      cases hpx : p x
      · rfl
      · exact absurd hpx hx

theorem dropWhile_head_false_eq_self {p : α → Bool} {l : List α}
    (h : ∀ c, l.head? = some c → p c = false) : l.dropWhile p = l := by
  cases l with
  | nil => rfl
  | cons x xs =>
    have hx : p x = false := h x rfl
    rw [List.dropWhile_cons, hx]
    simp

theorem dropWhile_idem (p : α → Bool) (l : List α) :
    (l.dropWhile p).dropWhile p = l.dropWhile p :=
  dropWhile_head_false_eq_self (fun c hc => head_dropWhile_false p l c hc)

theorem strip_chars_idem (L : List Char) :
    (((((L.dropWhile Char.isWhitespace).reverse.dropWhile
          Char.isWhitespace).reverse).dropWhile
        Char.isWhitespace).reverse.dropWhile Char.isWhitespace).reverse =
      ((L.dropWhile Char.isWhitespace).reverse.dropWhile Char.isWhitespace).reverse := by
  have hB : (((L.dropWhile Char.isWhitespace).reverse.dropWhile
      Char.isWhitespace).reverse).dropWhile Char.isWhitespace =
      ((L.dropWhile Char.isWhitespace).reverse.dropWhile Char.isWhitespace).reverse := by
    apply dropWhile_head_false_eq_self
    intro c hc
    obtain ⟨u, hu⟩ := List.dropWhile_suffix
      (l := (L.dropWhile Char.isWhitespace).reverse) Char.isWhitespace
    have hA : L.dropWhile Char.isWhitespace =
        ((L.dropWhile Char.isWhitespace).reverse.dropWhile
          Char.isWhitespace).reverse ++ u.reverse := by
      have h2 := congrArg List.reverse hu
      rw [List.reverse_append, List.reverse_reverse] at h2
      exact h2.symm
    have hAhead : (L.dropWhile Char.isWhitespace).head? = some c := by
      rw [hA]
      cases hB2 : ((L.dropWhile Char.isWhitespace).reverse.dropWhile
          Char.isWhitespace).reverse with
      | nil =>
        rw [hB2] at hc
        simp at hc
      | cons b bs =>
        rw [hB2] at hc
        rw [List.head?_cons] at hc
        injection hc with hc
        rw [List.cons_append, List.head?_cons, hc]
    exact head_dropWhile_false _ _ _ hAhead
  rw [hB, List.reverse_reverse, dropWhile_idem]

theorem pyStrip_idem (s : String) : pyStrip (pyStrip s) = pyStrip s :=
  congrArg String.mk (strip_chars_idem s.data)

theorem getUserInputGo_some_stripped :
    ∀ (fuel : Nat) (input : List String) (s : String),
      getUserInputGo fuel input = some s → s ≠ "" ∧ pyStrip s = s
  | 0, input, s, h => by
    rw [getUserInputGo] at h
    exact absurd h (by simp)
  | fuel + 1, input, s, h => by
    cases hr : readUntilDoubleBlank 0 input [] with
    | none =>
      rw [getUserInputGo, hr] at h
      exact absurd h (by simp)
    | some pr =>
      obtain ⟨lines, rest⟩ := pr
      rw [getUserInputGo_step fuel input lines rest hr] at h
      by_cases hd : pyStrip (strJoin "\n" (dropTrailingBlank lines)) = ""
      · rw [if_pos hd] at h
        exact getUserInputGo_some_stripped fuel rest s h
      · rw [if_neg hd] at h
        injection h with h
        constructor
        · rw [← h]
          exact hd
        · rw [← h]
          exact pyStrip_idem _

/-! ### Claim C10 -/

/-- C10: every description returned by `get_user_input` is non-empty and
is a fixed point of whitespace stripping (the whole joined description is
stripped, not only trailing blank lines); moreover a line consisting
solely of whitespace counts as blank for the double-blank terminator, as
the run on `["hello", "   ", "\t"]` shows. -/
theorem c10_output_stripped (input : List String) (s : String)
    (h : get_user_input input = some s) :
    s ≠ "" ∧ pyStrip s = s ∧
    get_user_input ["hello", "   ", "\t"] = some "hello" := by
  have hs := getUserInputGo_some_stripped (input.length + 1) input s h
  exact ⟨hs.1, hs.2, by decide⟩

/-- C10 (witness): the theorem applied to a concrete input stream. -/
theorem c10_output_stripped_witness :
    ("hello" : String) ≠ "" ∧ pyStrip "hello" = "hello" ∧
    get_user_input ["hello", "   ", "\t"] = some "hello" :=
  c10_output_stripped ["hello", "   ", "\t"] "hello" (by decide)

/-! ### Claim C9 -/

theorem mem_map_printed {ev : Event} {ls : List String}
    (h : ev ∈ ls.map Event.printed) : ∃ t, ev = Event.printed t := by
  rcases List.mem_map.mp h with ⟨x, -, hx⟩
  exact ⟨x, hx.symm⟩

theorem not_printed_not_mem (ev : Event) (hev : ∀ t, ev ≠ Event.printed t)
    (ls₁ ls₂ : List String) :
    ev ∉ ls₁.map Event.printed ++ ls₂.map Event.printed := by
  intro hmem
  rcases List.mem_append.mp hmem with h | h <;>
    exact (fun ⟨t, ht⟩ => hev t ht) (mem_map_printed h)

/-- C9: when a required credential is missing (or empty, which Python
truthiness also treats as missing), `main` prints the remediation message
naming the missing variable and returns: the trace holds only the welcome
banner and the remediation lines, with no agent initialization and no
analysis call. -/
theorem c9_missing_credentials (env : Env) (input : List String)
    (engine : String → Except String String) :
    (envTruthy env.gemini = false →
      main_trace env input engine =
        printWelcomeLines.map Event.printed ++ geminiMissingLines.map Event.printed ∧
      Event.printed "âŒ Error: GEMINI_API_KEY not found in environment variables" ∈ main_trace env input engine ∧
      Event.agentInit ∉ main_trace env input engine ∧
      (∀ d, Event.analysisCall d ∉ main_trace env input engine)) ∧
    (envTruthy env.gemini = true → envTruthy env.serpapi = false →
      main_trace env input engine =
        printWelcomeLines.map Event.printed ++ serpapiMissingLines.map Event.printed ∧
      Event.printed "âŒ Error: SERPAPI_API_KEY not found in environment variables" ∈ main_trace env input engine ∧
      Event.agentInit ∉ main_trace env input engine ∧
      (∀ d, Event.analysisCall d ∉ main_trace env input engine)) := by
  constructor
  · intro hg
    have htr : main_trace env input engine =
        printWelcomeLines.map Event.printed ++ geminiMissingLines.map Event.printed := by
      unfold main_trace
      rw [hg, if_pos rfl]
    refine ⟨htr, ?_, ?_, ?_⟩
    · rw [htr]
      apply List.mem_append_right
      apply List.mem_map_of_mem
      exact List.mem_cons_self _ _
    · rw [htr]
      exact not_printed_not_mem _ (fun t ht => Event.noConfusion ht) _ _
    · intro d
      rw [htr]
      exact not_printed_not_mem _ (fun t ht => Event.noConfusion ht) _ _
  · intro hg hs
    have htr : main_trace env input engine =
        printWelcomeLines.map Event.printed ++ serpapiMissingLines.map Event.printed := by
      unfold main_trace
      rw [hg, hs, if_neg (by simp), if_pos rfl]
    refine ⟨htr, ?_, ?_, ?_⟩
    · rw [htr]
      apply List.mem_append_right
      apply List.mem_map_of_mem
      exact List.mem_cons_self _ _
    · rw [htr]
      exact not_printed_not_mem _ (fun t ht => Event.noConfusion ht) _ _
    · intro d
      rw [htr]
      exact not_printed_not_mem _ (fun t ht => Event.noConfusion ht) _ _

/-- C9 (witness): the theorem applied to concrete environments missing
one credential each (and, for the second, an empty string, which is falsy
in Python). -/
theorem c9_missing_credentials_witness :
    (main_trace ⟨none, some "k"⟩ [] (fun _ => Except.ok "r") =
        printWelcomeLines.map Event.printed ++ geminiMissingLines.map Event.printed ∧
      Event.printed "âŒ Error: GEMINI_API_KEY not found in environment variables" ∈ main_trace ⟨none, some "k"⟩ [] (fun _ => Except.ok "r") ∧
      Event.agentInit ∉ main_trace ⟨none, some "k"⟩ [] (fun _ => Except.ok "r") ∧
      (∀ d, Event.analysisCall d ∉
        main_trace ⟨none, some "k"⟩ [] (fun _ => Except.ok "r"))) ∧
    (main_trace ⟨some "g", some ""⟩ [] (fun _ => Except.ok "r") =
        printWelcomeLines.map Event.printed ++ serpapiMissingLines.map Event.printed ∧
      Event.printed "âŒ Error: SERPAPI_API_KEY not found in environment variables" ∈ main_trace ⟨some "g", some ""⟩ [] (fun _ => Except.ok "r") ∧
      Event.agentInit ∉ main_trace ⟨some "g", some ""⟩ [] (fun _ => Except.ok "r") ∧
      (∀ d, Event.analysisCall d ∉
        main_trace ⟨some "g", some ""⟩ [] (fun _ => Except.ok "r"))) := by
  constructor
  · exact (c9_missing_credentials ⟨none, some "k"⟩ [] (fun _ => Except.ok "r")).1 rfl
  · exact (c9_missing_credentials ⟨some "g", some ""⟩ [] (fun _ => Except.ok "r")).2
      (by decide) (by decide)
